import Mathlib

/-!
Shallow embedding of the ClervLive event-streaming core (Go sources under
internal/core, internal/buffer, internal/throttle and the HTTP handlers).

Modelling conventions:
- Go strings are modelled as `List Char`.
- Go machine integers are modelled as `Nat`/`Int`; the one place where an
  int32 conversion can overflow (`AddaptiveBufferManager.recalculate`) models
  the wrap-around explicitly via `toInt32`.
- Go float64 arithmetic on ratios and thresholds is modelled with `ℚ`.
- Channels are modelled as lists bounded by their capacity; a non-blocking
  send succeeds exactly when the buffer holds fewer items than its capacity,
  a non-blocking receive succeeds exactly when the buffer is non-empty.
- Mutex- and atomic-protected state is modelled by sequential state passing:
  each operation is a function from state to state.
-/

/-- Go `core.Message` (internal/cache/recent_cache.go).  `id` and `timestamp`
are opaque numbers, `data` is an opaque payload number. -/
structure Message where
  id : Nat
  topic : List Char
  tenantID : List Char
  data : Nat
  timestamp : Nat
deriving DecidableEq

/-- The zero value of `core.Message`; `make([]Message, size)` fills the
backing slice with it. -/
def zeroMessage : Message := ⟨0, [], [], 0, 0⟩

/-- Go `core.RecentMessageCache` (internal/core/recent_cache.go): a ring
buffer over a slice of length `size` with a write cursor `index` and the
number `count` of slots holding real data. -/
structure RecentMessageCache where
  messages : List Message
  size : Nat
  index : Nat
  count : Nat
deriving DecidableEq

/-- Go `core.NewRecentMessageCache(size)`. -/
def NewRecentMessageCache (size : Nat) : RecentMessageCache :=
  { messages := List.replicate size zeroMessage
    size := size
    index := 0
    count := 0 }

/-- Go `(*RecentMessageCache).Add`: write at the cursor, advance the cursor
modulo `size`, and grow `count` until it saturates at `size`. -/
def RecentMessageCache.Add (c : RecentMessageCache) (msg : Message) : RecentMessageCache :=
  { c with
    messages := c.messages.set c.index msg
    index := (c.index + 1) % c.size
    count := if c.count < c.size then c.count + 1 else c.count }

/-- Go `(*RecentMessageCache).GetLast(n)` for a non-negative argument.
The Go code clamps `n` to `count`, returns an empty slice at 0, and otherwise
copies `n` items starting at `(index - n + size) % size`; since `n ≤ count ≤
size` in every reachable state, the Go int expression `index - n + size`
equals the Nat expression `index + size - n` used here. -/
def RecentMessageCache.GetLast (c : RecentMessageCache) (n : Nat) : List Message :=
  let n := min n c.count
  if n = 0 then []
  else
    let startPost := (c.index + c.size - n) % c.size
    (List.range n).map fun i => c.messages.getD ((startPost + i) % c.size) zeroMessage

/-- Go `(*RecentMessageCache).GetLast(n)` with its actual `int` argument.
A negative `n` survives both the `n > count` clamp and the `n == 0` test and
reaches `make([]Message, n)`, which panics; the panic is modelled as `none`. -/
def RecentMessageCache.GetLastInt (c : RecentMessageCache) (n : Int) : Option (List Message) :=
  let n := if n > (c.count : Int) then (c.count : Int) else n
  if n = 0 then some []
  else if n < 0 then none
  else some (c.GetLast n.toNat)

/-- Go `(*RecentMessageCache).GetAll()`: `GetLast(c.count)` with `count`
passed as an `int`. -/
def RecentMessageCache.GetAll (c : RecentMessageCache) : Option (List Message) :=
  c.GetLastInt (c.count : Int)

/-- A sequence of `Add` calls, oldest first. -/
def addAll (c : RecentMessageCache) (ms : List Message) : RecentMessageCache :=
  ms.foldl RecentMessageCache.Add c

/-- Abstraction relation between a ring-buffer state and the full insertion
history `ms`: sizes are intact, the cursor and count are determined by the
history length, and slot `(index + size - 1 - j) % size` holds the `j`-th
most recent message. -/
def CacheInv (N : Nat) (ms : List Message) (c : RecentMessageCache) : Prop :=
  c.size = N ∧ c.messages.length = N ∧ c.index = ms.length % N ∧
  c.count = min ms.length N ∧
  ∀ j, j < c.count →
    c.messages.getD ((c.index + N - 1 - j) % N) zeroMessage = ms.reverse.getD j zeroMessage

lemma cacheInv_new (N : Nat) : CacheInv N [] (NewRecentMessageCache N) := by
  refine ⟨rfl, by simp [NewRecentMessageCache], by simp [NewRecentMessageCache], by simp [NewRecentMessageCache], ?_⟩
  intro j hj
  simp [NewRecentMessageCache] at hj

lemma mod_add_ne_self {N i r : Nat} (hi : i < N) (hr1 : 1 ≤ r) (hr2 : r ≤ N - 1) :
    (i + r) % N ≠ i := by
  have hN : 0 < N := lt_of_le_of_lt (Nat.zero_le i) hi
  rcases Nat.lt_or_ge (i + r) N with h | h
  · rw [Nat.mod_eq_of_lt h]
    omega
  · have h2 : i + r - N < N := by omega
    rw [Nat.mod_eq_sub_mod h, Nat.mod_eq_of_lt h2]
    omega

lemma getD_set_self {α : Type} {l : List α} {i : Nat} (h : i < l.length) (a d : α) :
    (l.set i a).getD i d = a := by
  simp [List.getD_eq_getElem?_getD, List.getElem?_set_eq_of_lt a h]

lemma getD_set_ne {α : Type} {l : List α} {i j : Nat} (h : i ≠ j) (a d : α) :
    (l.set i a).getD j d = l.getD j d := by
  simp [List.getD_eq_getElem?_getD, List.getElem?_set_ne h]

lemma cacheInv_add {N : Nat} (hN : 0 < N) {ms : List Message} {c : RecentMessageCache}
    (h : CacheInv N ms c) (m : Message) : CacheInv N (ms ++ [m]) (c.Add m) := by
  obtain ⟨msgs, sz, idx, cnt⟩ := c
  obtain ⟨hsize, hlen, hidx, hcount, hcontent⟩ := h
  simp only at hsize hlen hidx hcount hcontent
  subst sz idx cnt
  have hiN : ms.length % N < N := Nat.mod_lt _ hN
  refine ⟨rfl, ?_, ?_, ?_, ?_⟩
  · simpa [RecentMessageCache.Add] using hlen
  · simp only [RecentMessageCache.Add, List.length_append, List.length_singleton]
    exact Nat.mod_add_mod _ _ _
  · simp only [RecentMessageCache.Add, List.length_append, List.length_singleton]
    split <;> omega
  · intro j hj
    simp only [RecentMessageCache.Add] at hj ⊢
    have hjN : j < N := by split at hj <;> omega
    have hpos : ((ms.length % N + 1) % N + N - 1 - j) % N = (ms.length % N + (N - j)) % N := by
      have h1 : (ms.length % N + 1) % N + N - 1 - j
          = (ms.length % N + 1) % N + (N - 1 - j) := by omega
      rw [h1, Nat.mod_add_mod]
      congr 1
      omega
    rcases Nat.eq_zero_or_pos j with hj0 | hjpos
    · subst hj0
      have hself : (ms.length % N + (N - 0)) % N = ms.length % N := by
        have h2 : ms.length % N + (N - 0) = ms.length % N + N := by omega
        rw [h2, Nat.add_mod_right, Nat.mod_eq_of_lt hiN]
      rw [hpos, hself, getD_set_self (by omega)]
      simp [List.reverse_append]
    · obtain ⟨j', rfl⟩ : ∃ j', j = j' + 1 := ⟨j - 1, by omega⟩
      have hr1 : 1 ≤ N - (j' + 1) := by omega
      have hr2 : N - (j' + 1) ≤ N - 1 := by omega
      have hne : (ms.length % N + (N - (j' + 1))) % N ≠ ms.length % N :=
        mod_add_ne_self hiN hr1 hr2
      have hj'c : j' < min ms.length N := by split at hj <;> omega
      have hcont := hcontent j' hj'c
      have hold : ms.length % N + N - 1 - j' = ms.length % N + (N - (j' + 1)) := by omega
      rw [hold] at hcont
      rw [hpos, getD_set_ne hne.symm, hcont]
      simp [List.reverse_append]

lemma cacheInv_addAll (N : Nat) (hN : 0 < N) (ms : List Message) :
    CacheInv N ms (addAll (NewRecentMessageCache N) ms) := by
  induction ms using List.reverseRecOn with
  | nil => exact cacheInv_new N
  | append_singleton ms m ih =>
      have : addAll (NewRecentMessageCache N) (ms ++ [m])
          = (addAll (NewRecentMessageCache N) ms).Add m := by
        simp [addAll, List.foldl_append]
      rw [this]
      exact cacheInv_add hN ih m

lemma getLast_of_inv {N : Nat} (_hN : 0 < N) {ms : List Message} {c : RecentMessageCache}
    (h : CacheInv N ms c) (n : Nat) :
    c.GetLast n = ms.drop (ms.length - min n c.count) := by
  obtain ⟨msgs, sz, idx, cnt⟩ := c
  obtain ⟨hsize, hlen, hidx, hcount, hcontent⟩ := h
  simp only at hsize hlen hidx hcount hcontent
  subst sz idx cnt
  simp only [RecentMessageCache.GetLast]
  rcases Nat.eq_zero_or_pos (min n (min ms.length N)) with h0 | hpos0
  · rw [if_pos h0]
    have : ms.length - min n (min ms.length N) = ms.length := by omega
    rw [this, List.drop_length]
  · rw [if_neg (by omega)]
    set L := ms.length with hL
    set n' := min n (min L N) with hn'
    have hn'L : n' ≤ L := by omega
    have hn'N : n' ≤ N := by omega
    apply List.ext_getElem
    · simp [List.length_drop]
      omega
    · intro i h1 h2
      simp only [List.getElem_map, List.getElem_range]
      have hiL : i < n' := by simpa using h1
      have hstart : ((L % N + N - n') % N + i) % N = (L % N + N - n' + i) % N :=
        Nat.mod_add_mod _ _ _
      have hexp : L % N + N - n' + i = L % N + N - 1 - (n' - 1 - i) := by omega
      have hj : n' - 1 - i < min L N := by omega
      have hcont := hcontent (n' - 1 - i) hj
      rw [hstart, hexp, hcont]
      have hrev : n' - 1 - i < ms.reverse.length := by simp; omega
      rw [List.getD_eq_getElem _ _ hrev, List.getElem_reverse]
      rw [List.getElem_drop]
      congr 1
      omega

/-- The `count` of a cache built by a run of `Add` calls is the history length
saturated at the capacity. -/
lemma cache_count_addAll (N : Nat) (hN : 0 < N) (ms : List Message) :
    (addAll (NewRecentMessageCache N) ms).count = min ms.length N :=
  (cacheInv_addAll N hN ms).2.2.2.1

/-- C7: RecentCache correctness.  After any insertion history `ms` into a
cache of capacity `N ≥ 1`: `count` never exceeds `N`; `GetLast k` is exactly
the `min k count` most recent messages, in insertion order (the suffix of the
history — so the oldest messages are the ones evicted on overflow); and the
result is empty when the cache is empty. -/
theorem recentCache_getLast_correct (N : Nat) (hN : 0 < N) (ms : List Message) (k : Nat) :
    (addAll (NewRecentMessageCache N) ms).count ≤ N ∧
    (addAll (NewRecentMessageCache N) ms).count = min ms.length N ∧
    (addAll (NewRecentMessageCache N) ms).GetLast k
      = ms.drop (ms.length - min k (addAll (NewRecentMessageCache N) ms).count) ∧
    ((addAll (NewRecentMessageCache N) ms).GetLast k).length
      = min k (addAll (NewRecentMessageCache N) ms).count ∧
    (ms = [] → (addAll (NewRecentMessageCache N) ms).GetLast k = []) := by
  have hinv := cacheInv_addAll N hN ms
  have hcount := hinv.2.2.2.1
  have hget := getLast_of_inv hN hinv k
  refine ⟨by omega, hcount, hget, ?_, ?_⟩
  · rw [hget, List.length_drop]
    omega
  · intro hnil
    subst hnil
    rw [hget]
    simp

/-- C7 witness at capacity 2, three adds, `GetLast 2`. -/
theorem recentCache_getLast_correct_witness :
    (addAll (NewRecentMessageCache 2) [⟨1, [], [], 1, 0⟩, ⟨2, [], [], 2, 0⟩, ⟨3, [], [], 3, 0⟩]).count ≤ 2 ∧
    (addAll (NewRecentMessageCache 2) [⟨1, [], [], 1, 0⟩, ⟨2, [], [], 2, 0⟩, ⟨3, [], [], 3, 0⟩]).count
      = min 3 2 ∧
    (addAll (NewRecentMessageCache 2) [⟨1, [], [], 1, 0⟩, ⟨2, [], [], 2, 0⟩, ⟨3, [], [], 3, 0⟩]).GetLast 2
      = [⟨1, [], [], 1, 0⟩, ⟨2, [], [], 2, 0⟩, ⟨3, [], [], 3, 0⟩].drop
          (3 - min 2 (addAll (NewRecentMessageCache 2) [⟨1, [], [], 1, 0⟩, ⟨2, [], [], 2, 0⟩, ⟨3, [], [], 3, 0⟩]).count) ∧
    ((addAll (NewRecentMessageCache 2) [⟨1, [], [], 1, 0⟩, ⟨2, [], [], 2, 0⟩, ⟨3, [], [], 3, 0⟩]).GetLast 2).length
      = min 2 (addAll (NewRecentMessageCache 2) [⟨1, [], [], 1, 0⟩, ⟨2, [], [], 2, 0⟩, ⟨3, [], [], 3, 0⟩]).count ∧
    (([⟨1, [], [], 1, 0⟩, ⟨2, [], [], 2, 0⟩, ⟨3, [], [], 3, 0⟩] : List Message) = [] →
      (addAll (NewRecentMessageCache 2) [⟨1, [], [], 1, 0⟩, ⟨2, [], [], 2, 0⟩, ⟨3, [], [], 3, 0⟩]).GetLast 2 = []) :=
  recentCache_getLast_correct 2 (by decide) _ 2

/-- Go `core.DropStrategy` (internal/core/subscriber.go). -/
inductive DropStrategy
  | dropOldest
  | dropNewest
  | circuitBreaker
deriving DecidableEq

/-- Go `core.Subscriber`.  The buffered channel `messageChan` is the list
`inbox` bounded by `cap`; the atomic counters are plain naturals; `closed`
records whether `Close` ran (context cancelled, `done` and the channel
closed). -/
structure Subscriber where
  id : List Char
  tenantID : List Char
  topic : List Char
  inbox : List Message
  cap : Nat
  dropStrategy : DropStrategy
  received : Nat
  sent : Nat
  dropped : Nat
  closed : Bool
deriving DecidableEq

/-- Go `core.NewSubscriber`: fresh counters, empty inbox of capacity
`bufferSize`, strategy hard-wired to `DROP_OLDEST`. -/
def NewSubscriber (id tenantID topic : List Char) (bufferSize : Nat) : Subscriber :=
  { id := id
    tenantID := tenantID
    topic := topic
    inbox := []
    cap := bufferSize
    dropStrategy := .dropOldest
    received := 0
    sent := 0
    dropped := 0
    closed := false }

/-- Result of one `SendMessages` call: the new subscriber state, whether the
call returned `nil` (`ok`), and whether the message was actually placed into
the inbox (`enq`). -/
structure SendOutcome where
  sub : Subscriber
  ok : Bool
  enq : Bool
deriving DecidableEq

/-- Go `(*Subscriber).Close` without the I/O side effects (context cancel,
websocket close): the state becomes closed. -/
def Subscriber.Close (s : Subscriber) : Subscriber := { s with closed := true }

/-- Go `(*Subscriber).handleBackPressure`, reached when the non-blocking
enqueue found the inbox full.
`DROP_OLDEST`: non-blocking dequeue one (counting a drop), then retry the
enqueue, counting a further drop and erroring if still full.
`DROP_NEWEST`: count a drop and error.
`CIRCUIT_BREAKER`: close and error once `dropped > 100`, otherwise return
`nil` without enqueuing and without touching any counter. -/
def Subscriber.handleBackPressure (s : Subscriber) (msg : Message) : SendOutcome :=
  match s.dropStrategy with
  | .dropOldest =>
    let s :=
      match s.inbox with
      | [] => s
      | _ :: rest => { s with inbox := rest, dropped := s.dropped + 1 }
    if s.inbox.length < s.cap then ⟨{ s with inbox := s.inbox ++ [msg] }, true, true⟩
    else ⟨{ s with dropped := s.dropped + 1 }, false, false⟩
  | .dropNewest => ⟨{ s with dropped := s.dropped + 1 }, false, false⟩
  | .circuitBreaker =>
    if s.dropped > 100 then ⟨s.Close, false, false⟩
    else ⟨s, true, false⟩

/-- Go `(*Subscriber).SendMessages`: count the receipt, then try a
non-blocking enqueue; fall back to `handleBackPressure` when the inbox is
full. -/
def Subscriber.SendMessages (s : Subscriber) (msg : Message) : SendOutcome :=
  let s := { s with received := s.received + 1 }
  if s.inbox.length < s.cap then ⟨{ s with inbox := s.inbox ++ [msg] }, true, true⟩
  else s.handleBackPressure msg

/-- One iteration of Go `(*Subscriber).sendLoop` that dequeues a message:
on a successful transport write the message counts as sent; on a write
failure the subscriber is closed (and the dequeued message is gone). -/
def Subscriber.deliverStep (s : Subscriber) (writeOk : Bool) : Subscriber :=
  match s.inbox with
  | [] => s
  | _ :: rest =>
    if writeOk then { s with inbox := rest, sent := s.sent + 1 }
    else Subscriber.Close { s with inbox := rest }

/-- An event in the life of one subscriber: a publisher-side `SendMessages`
call, or one delivery iteration of its `sendLoop` (with the success of the
transport write as a parameter). -/
inductive SubEvent
  | send (m : Message)
  | deliver (writeOk : Bool)
deriving DecidableEq

/-- Interleaved execution of sends and delivery-loop steps. -/
def subStep (s : Subscriber) (e : SubEvent) : Subscriber :=
  match e with
  | .send m => (s.SendMessages m).sub
  | .deliver ok => s.deliverStep ok

def runSub (s : Subscriber) (events : List SubEvent) : Subscriber :=
  events.foldl subStep s

lemma subStep_strategy (s : Subscriber) (e : SubEvent) :
    (subStep s e).dropStrategy = s.dropStrategy := by
  obtain ⟨sid, stn, stp, inbox, scap, ds, rc, st, dr, cl⟩ := s
  rcases e with m | ok
  · simp only [subStep, Subscriber.SendMessages]
    split
    · rfl
    · simp only [Subscriber.handleBackPressure]
      rcases ds with _ | _ | _
      · rcases inbox with _ | ⟨m', rest⟩ <;> dsimp only <;> split <;> rfl
      · rfl
      · dsimp only
        split <;> simp [Subscriber.Close]
  · simp only [subStep, Subscriber.deliverStep]
    rcases inbox with _ | ⟨m', rest⟩
    · rfl
    · dsimp only
      split <;> simp [Subscriber.Close]

lemma sendMessages_acct (s : Subscriber) (m : Message)
    (h : s.dropStrategy = DropStrategy.dropOldest ∨ s.dropStrategy = DropStrategy.dropNewest) :
    (s.SendMessages m).sub.received = s.received + 1 ∧
    (s.SendMessages m).sub.sent + (s.SendMessages m).sub.dropped
        + (s.SendMessages m).sub.inbox.length
      = s.sent + s.dropped + s.inbox.length + 1 := by
  obtain ⟨sid, stn, stp, inbox, scap, ds, rc, st, dr, cl⟩ := s
  simp only at h
  simp only [Subscriber.SendMessages]
  split
  · refine ⟨rfl, ?_⟩
    simp only [List.length_append, List.length_singleton]
    omega
  · simp only [Subscriber.handleBackPressure]
    rcases h with h | h <;> subst h
    · rcases inbox with _ | ⟨m', rest⟩ <;> dsimp only <;> split <;>
        refine ⟨rfl, ?_⟩ <;> simp only [List.length_append, List.length_singleton,
          List.length_cons, List.length_nil] <;> omega
    · dsimp only
      exact ⟨rfl, by omega⟩

lemma deliver_acct (s : Subscriber) :
    (s.deliverStep true).received = s.received ∧
    (s.deliverStep true).sent + (s.deliverStep true).dropped
        + (s.deliverStep true).inbox.length
      = s.sent + s.dropped + s.inbox.length := by
  obtain ⟨sid, stn, stp, inbox, scap, ds, rc, st, dr, cl⟩ := s
  simp only [Subscriber.deliverStep]
  rcases inbox with _ | ⟨m', rest⟩
  · exact ⟨rfl, rfl⟩
  · dsimp only
    rw [if_pos trivial]
    refine ⟨rfl, ?_⟩
    simp only [List.length_cons]
    omega

/-- C3 (amended): drop accounting `received = sent + dropped + in_inbox` is an
invariant of every interleaving of `SendMessages` calls and delivery-loop
steps, for the `DropOldest` and `DropNewest` strategies and as long as every
transport write succeeds. -/
theorem subscriber_drop_accounting (s : Subscriber) (events : List SubEvent)
    (h1 : s.dropStrategy = DropStrategy.dropOldest ∨ s.dropStrategy = DropStrategy.dropNewest)
    (h2 : ∀ e ∈ events, e ≠ SubEvent.deliver false)
    (h3 : s.received = s.sent + s.dropped + s.inbox.length) :
    (runSub s events).received
      = (runSub s events).sent + (runSub s events).dropped
          + (runSub s events).inbox.length := by
  induction events generalizing s with
  | nil => simpa [runSub] using h3
  | cons e rest ih =>
      have hstep : (subStep s e).received
          = (subStep s e).sent + (subStep s e).dropped + (subStep s e).inbox.length := by
        rcases e with m | ok
        · have := sendMessages_acct s m h1
          simp only [subStep]
          omega
        · have hok : ok = true := by
            have := h2 (SubEvent.deliver ok) (by simp)
            simpa using this
          subst hok
          have := deliver_acct s
          simp only [subStep]
          omega
      have hstrat := subStep_strategy s e
      have : runSub s (e :: rest) = runSub (subStep s e) rest := by
        simp [runSub]
      rw [this]
      exact ih (subStep s e) (by rw [hstrat]; exact h1)
        (fun x hx => h2 x (by simp [hx])) hstep

/-- C3 witness: a fresh DropOldest subscriber of capacity 1 through two sends
and one successful delivery. -/
theorem subscriber_drop_accounting_witness :
    (runSub (NewSubscriber [] [] [] 1)
        [SubEvent.send zeroMessage, SubEvent.send zeroMessage,
         SubEvent.deliver true]).received
      = (runSub (NewSubscriber [] [] [] 1)
          [SubEvent.send zeroMessage, SubEvent.send zeroMessage,
           SubEvent.deliver true]).sent
        + (runSub (NewSubscriber [] [] [] 1)
            [SubEvent.send zeroMessage, SubEvent.send zeroMessage,
             SubEvent.deliver true]).dropped
        + (runSub (NewSubscriber [] [] [] 1)
            [SubEvent.send zeroMessage, SubEvent.send zeroMessage,
             SubEvent.deliver true]).inbox.length :=
  subscriber_drop_accounting _ _ (by left; rfl) (by decide) (by decide)

/-- C3 counterexample to the claim as stated: under `CircuitBreaker` a send
that finds the inbox full is discarded without touching `sent`, `dropped` or
the inbox, so `received = 2` against `sent + dropped + in_inbox = 1`; and a
failed transport write loses the dequeued message under `DropOldest`, giving
`received = 1` against `sent + dropped + in_inbox = 0`. -/
theorem subscriber_drop_accounting_counterexample :
    ((runSub { NewSubscriber [] [] [] 1 with dropStrategy := DropStrategy.circuitBreaker }
        [SubEvent.send zeroMessage, SubEvent.send zeroMessage]).received = 2 ∧
      (runSub { NewSubscriber [] [] [] 1 with dropStrategy := DropStrategy.circuitBreaker }
          [SubEvent.send zeroMessage, SubEvent.send zeroMessage]).sent
        + (runSub { NewSubscriber [] [] [] 1 with dropStrategy := DropStrategy.circuitBreaker }
            [SubEvent.send zeroMessage, SubEvent.send zeroMessage]).dropped
        + (runSub { NewSubscriber [] [] [] 1 with dropStrategy := DropStrategy.circuitBreaker }
            [SubEvent.send zeroMessage, SubEvent.send zeroMessage]).inbox.length = 1) ∧
    ((runSub (NewSubscriber [] [] [] 1)
        [SubEvent.send zeroMessage, SubEvent.deliver false]).received = 1 ∧
      (runSub (NewSubscriber [] [] [] 1)
          [SubEvent.send zeroMessage, SubEvent.deliver false]).sent
        + (runSub (NewSubscriber [] [] [] 1)
            [SubEvent.send zeroMessage, SubEvent.deliver false]).dropped
        + (runSub (NewSubscriber [] [] [] 1)
            [SubEvent.send zeroMessage, SubEvent.deliver false]).inbox.length = 0) := by
  decide

set_option maxRecDepth 4000 in
/-- C2: spec scenario S5 evaluated on the code.  A `CircuitBreaker` subscriber
of capacity 1 receives 102 sends: the first fills the inbox, the other 101
each find it full.  The `CIRCUIT_BREAKER` branch never increments `dropped`,
so `dropped` stays 0, the breaker condition `dropped > 100` never fires, every
call returns success, and the subscriber is never closed — against the spec's
"Subscriber is closed". -/
theorem circuitBreaker_never_closes :
    (runSub { NewSubscriber [] [] [] 1 with dropStrategy := DropStrategy.circuitBreaker }
        (List.replicate 102 (SubEvent.send zeroMessage))).closed = false ∧
    (runSub { NewSubscriber [] [] [] 1 with dropStrategy := DropStrategy.circuitBreaker }
        (List.replicate 102 (SubEvent.send zeroMessage))).dropped = 0 ∧
    (runSub { NewSubscriber [] [] [] 1 with dropStrategy := DropStrategy.circuitBreaker }
        (List.replicate 102 (SubEvent.send zeroMessage))).received = 102 ∧
    (runSub { NewSubscriber [] [] [] 1 with dropStrategy := DropStrategy.circuitBreaker }
        (List.replicate 102 (SubEvent.send zeroMessage))).sent = 0 ∧
    (runSub { NewSubscriber [] [] [] 1 with dropStrategy := DropStrategy.circuitBreaker }
        (List.replicate 102 (SubEvent.send zeroMessage))).inbox.length = 1 := by
  decide

/-- Go `(*Topic).sendRecentMessages`' loop body over a fixed snapshot of
messages: each message goes through `SendMessages`; the first error stops the
loop.  The second component collects the messages that were actually enqueued,
in order. -/
def catchUp : Subscriber → List Message → Subscriber × List Message
  | s, [] => (s, [])
  | s, m :: rest =>
    let r := s.SendMessages m
    if r.ok then
      let p := catchUp r.sub rest
      (p.1, (if r.enq then [m] else []) ++ p.2)
    else (r.sub, if r.enq then [m] else [])

/-- Go `core.Topic`: name, tenant, subscriber map (modelled as a list keyed by
`id`), recent cache and the publish counter. -/
structure TopicState where
  name : List Char
  tenantID : List Char
  subscribers : List Subscriber
  recentCache : RecentMessageCache
  messagesPublished : Nat
deriving DecidableEq

/-- Go `core.NewTopic(name, tenantID, cahcheSize)`. -/
def NewTopic (name tenantID : List Char) (cahcheSize : Nat) : TopicState :=
  { name := name
    tenantID := tenantID
    subscribers := []
    recentCache := NewRecentMessageCache cahcheSize
    messagesPublished := 0 }

/-- Update of the `subscribers` map at key `s.id`. -/
def setSub (subs : List Subscriber) (s : Subscriber) : List Subscriber :=
  if subs.any fun x => x.id == s.id then subs.map fun x => if x.id == s.id then s else x
  else subs ++ [s]

/-- The parallel fan-out of Go `(*Topic).Publish` steps 3-4, flattened to a
sequential pass over the snapshot (each per-subscriber delivery only touches
that subscriber, so the parallel execution is equivalent to this fold).
Returns the updated subscribers and the `(subscriber, message)` pairs that
were enqueued; per-subscriber errors are logged and dropped. -/
def fanOut : List Subscriber → Message → List Subscriber × List (Subscriber × Message)
  | [], _ => ([], [])
  | s :: rest, msg =>
    let r := s.SendMessages msg
    let p := fanOut rest msg
    (r.sub :: p.1, (if r.enq then [(s, msg)] else []) ++ p.2)

/-- Go `(*Topic).Publish`: count, append to the recent cache, snapshot the
subscriber set and fan out.  Always returns success. -/
def TopicState.Publish (t : TopicState) (msg : Message) :
    TopicState × List (Subscriber × Message) :=
  let p := fanOut t.subscribers msg
  ({ t with
      messagesPublished := t.messagesPublished + 1
      recentCache := t.recentCache.Add msg
      subscribers := p.1 }, p.2)

/-- Go `(*Topic).Subscribe`: reject on tenant mismatch, insert the subscriber,
then (asynchronously) replay `GetLast 50` of the recent cache through
`SendMessages`; a replay failure is logged and never surfaces to the caller.
`none` models the tenant-mismatch error; the second component is the list of
catch-up messages actually enqueued, paired with the subscriber. -/
def TopicState.Subscribe (t : TopicState) (s : Subscriber) :
    Option (TopicState × List (Subscriber × Message)) :=
  if t.tenantID = s.tenantID then
    let p := catchUp s (t.recentCache.GetLast 50)
    some ({ t with subscribers := setSub t.subscribers p.1 }, p.2.map fun m => (s, m))
  else none

/-- Go `(*TopicManager).makeTopicKey`: `fmt.Sprintf("%s:%s", tenantID, name)`. -/
def makeTopicKey (tenantID topicName : List Char) : List Char :=
  tenantID ++ ':' :: topicName

/-- Go `core.TopicManager`, plus a ghost `delivered` log recording every
`(subscriber, message)` pair enqueued by a fan-out or a catch-up replay. -/
structure TopicManagerState where
  topics : List (List Char × TopicState)
  delivered : List (Subscriber × Message)
deriving DecidableEq

def findTopic (topics : List (List Char × TopicState)) (key : List Char) :
    Option TopicState :=
  (topics.find? fun p => p.1 == key).map fun p => p.2

def setTopic (topics : List (List Char × TopicState)) (key : List Char) (t : TopicState) :
    List (List Char × TopicState) :=
  if topics.any fun p => p.1 == key then
    topics.map fun p => if p.1 == key then (key, t) else p
  else topics ++ [(key, t)]

/-- Go `core.NewMessage(topic, tenantID, data)` as built by the publish
handler; the generated id and timestamp are opaque. -/
def NewMessage (topic tenantID : List Char) (data : Nat) : Message :=
  { id := 0, topic := topic, tenantID := tenantID, data := data, timestamp := 0 }

/-- The operations of the delivery core as driven by the HTTP handlers:
a publish request (tenant resolved from context, message built by the
handler) and a subscribe request. -/
inductive SysOp
  | publish (tenantID topicName : List Char) (data : Nat)
  | subscribe (tenantID topicName : List Char) (sub : Subscriber)
deriving DecidableEq

/-- One step of the system.
publish: handler builds `NewMessage(topic, tenant, data)` and calls
`TopicManager.Publish`, which routes through `getOrCreateTopic` on the key
`tenant + ":" + topic` and calls `Topic.Publish`.
subscribe: `TopicManager.Subscribe` checks `sub.TenantID == tenant_id`, routes
through `getOrCreateTopic` on the same key and calls `Topic.Subscribe`; an
error leaves the state unchanged. -/
def sysStep (st : TopicManagerState) (op : SysOp) : TopicManagerState :=
  match op with
  | .publish tenantID topicName data =>
    let msg := NewMessage topicName tenantID data
    let key := makeTopicKey tenantID topicName
    let t := (findTopic st.topics key).getD (NewTopic topicName tenantID 100)
    let p := t.Publish msg
    { topics := setTopic st.topics key p.1, delivered := st.delivered ++ p.2 }
  | .subscribe tenantID topicName sub =>
    if sub.tenantID = tenantID then
      let key := makeTopicKey tenantID topicName
      let t := (findTopic st.topics key).getD (NewTopic topicName tenantID 100)
      match t.Subscribe sub with
      | some p => { topics := setTopic st.topics key p.1, delivered := st.delivered ++ p.2 }
      | none => st
    else st

def runSys (ops : List SysOp) : TopicManagerState :=
  ops.foldl sysStep { topics := [], delivered := [] }

set_option maxRecDepth 4000 in
/-- C1: tenant isolation fails on the code.  `makeTopicKey` concatenates
tenant and topic name with `":"`, so tenant `"a"` with topic `"b:c"` and
tenant `"a:b"` with topic `"c"` share the key `"a:b:c"`.  After a subscriber
of tenant `"a"` joins topic `"b:c"`, a publish by tenant `"a:b"` to topic
`"c"` is routed to the same Topic and fanned out with no tenant check: the
delivered log ends with a subscriber of tenant `"a"` receiving a message
whose `tenant_id` is `"a:b"`. -/
theorem tenant_isolation_code_bug :
    ((runSys [SysOp.publish ['a'] ['b', ':', 'c'] 0,
        SysOp.subscribe ['a'] ['b', ':', 'c'] (NewSubscriber ['s'] ['a'] ['b', ':', 'c'] 100),
        SysOp.publish ['a', ':', 'b'] ['c'] 1]).delivered.map
      fun p => (p.1.tenantID, p.2.tenantID))
      = [(['a'], ['a']), (['a'], ['a', ':', 'b'])] ∧
    (['a'] : List Char) ≠ ['a', ':', 'b'] := by
  decide

lemma getLast_length (c : RecentMessageCache) (n : Nat) :
    (c.GetLast n).length = min n c.count := by
  simp only [RecentMessageCache.GetLast]
  split
  · simp only [List.length_nil]
    omega
  · simp

lemma sendMessages_oldest_ok (s : Subscriber) (m : Message)
    (h1 : s.dropStrategy = DropStrategy.dropOldest) (h2 : 1 ≤ s.cap)
    (h3 : s.inbox.length ≤ s.cap) :
    (s.SendMessages m).ok = true ∧ (s.SendMessages m).enq = true ∧
    (s.SendMessages m).sub.dropStrategy = DropStrategy.dropOldest ∧
    (s.SendMessages m).sub.cap = s.cap ∧
    (s.SendMessages m).sub.inbox.length ≤ s.cap := by
  obtain ⟨sid, stn, stp, inbox, scap, ds, rc, st, dr, cl⟩ := s
  simp only at h1 h2 h3
  subst h1
  simp only [Subscriber.SendMessages]
  split
  · rename_i hlt
    refine ⟨rfl, rfl, rfl, rfl, ?_⟩
    simp only [List.length_append, List.length_singleton]
    omega
  · simp only [Subscriber.handleBackPressure]
    rcases inbox with _ | ⟨m', rest⟩
    · simp only [List.length_nil] at *
      omega
    · dsimp only
      simp only [List.length_cons] at *
      rw [if_pos (by omega)]
      refine ⟨rfl, rfl, rfl, rfl, ?_⟩
      simp only [List.length_append, List.length_singleton]
      omega

lemma catchUp_all_enqueued (msgs : List Message) (s : Subscriber)
    (h1 : s.dropStrategy = DropStrategy.dropOldest) (h2 : 1 ≤ s.cap)
    (h3 : s.inbox.length ≤ s.cap) :
    (catchUp s msgs).2 = msgs := by
  induction msgs generalizing s with
  | nil => rfl
  | cons m rest ih =>
      obtain ⟨hok, henq, hstrat, hcap, hlen⟩ := sendMessages_oldest_ok s m h1 h2 h3
      simp only [catchUp, hok, henq, if_true]
      rw [ih (s.SendMessages m).sub hstrat (hcap ▸ h2) (hcap ▸ hlen)]
      simp

/-- C8: catch-up is bounded and ordered.  For a topic whose recent cache was
built by the insertion history `ms` (capacity `N ≥ 1`) and a subscriber in
the state the code constructs (strategy `DropOldest`, capacity at least 1,
inbox within capacity), the catch-up replay enqueues exactly
`min 50 count` messages — the most recent ones, in insertion order — and
`Topic.Subscribe` returns success whenever the tenants match, independently
of anything the replay does (a replay failure is logged, never returned). -/
theorem catchup_bounded_ordered (N : Nat) (hN : 0 < N) (ms : List Message)
    (s : Subscriber) (t : TopicState)
    (h1 : s.dropStrategy = DropStrategy.dropOldest) (h2 : 1 ≤ s.cap)
    (h3 : s.inbox.length ≤ s.cap)
    (ht : t.recentCache = addAll (NewRecentMessageCache N) ms) :
    (catchUp s (t.recentCache.GetLast 50)).2 = t.recentCache.GetLast 50 ∧
    (t.recentCache.GetLast 50).length = min 50 t.recentCache.count ∧
    t.recentCache.GetLast 50 = ms.drop (ms.length - min 50 t.recentCache.count) ∧
    (t.tenantID = s.tenantID → (t.Subscribe s).isSome = true) ∧
    (t.tenantID ≠ s.tenantID → t.Subscribe s = none) := by
  refine ⟨catchUp_all_enqueued _ s h1 h2 h3, getLast_length _ 50, ?_, ?_, ?_⟩
  · rw [ht]
    have hinv := cacheInv_addAll N hN ms
    exact getLast_of_inv hN hinv 50
  · intro hmatch
    simp [TopicState.Subscribe, hmatch]
  · intro hmismatch
    simp [TopicState.Subscribe, hmismatch]

/-- C8 witness: capacity-2 cache holding one message, fresh subscriber of
buffer size 1, matching tenants. -/
theorem catchup_bounded_ordered_witness :
    (catchUp (NewSubscriber ['s'] ['a'] ['n'] 1)
        (({ NewTopic ['n'] ['a'] 2 with
            recentCache := addAll (NewRecentMessageCache 2) [zeroMessage] }
          : TopicState).recentCache.GetLast 50)).2
      = ({ NewTopic ['n'] ['a'] 2 with
            recentCache := addAll (NewRecentMessageCache 2) [zeroMessage] }
          : TopicState).recentCache.GetLast 50 ∧
    (({ NewTopic ['n'] ['a'] 2 with
        recentCache := addAll (NewRecentMessageCache 2) [zeroMessage] }
      : TopicState).recentCache.GetLast 50).length
      = min 50 ({ NewTopic ['n'] ['a'] 2 with
          recentCache := addAll (NewRecentMessageCache 2) [zeroMessage] }
        : TopicState).recentCache.count ∧
    ({ NewTopic ['n'] ['a'] 2 with
        recentCache := addAll (NewRecentMessageCache 2) [zeroMessage] }
      : TopicState).recentCache.GetLast 50
      = [zeroMessage].drop (1 - min 50 ({ NewTopic ['n'] ['a'] 2 with
          recentCache := addAll (NewRecentMessageCache 2) [zeroMessage] }
        : TopicState).recentCache.count) ∧
    (({ NewTopic ['n'] ['a'] 2 with
        recentCache := addAll (NewRecentMessageCache 2) [zeroMessage] }
      : TopicState).tenantID = (NewSubscriber ['s'] ['a'] ['n'] 1).tenantID →
      (({ NewTopic ['n'] ['a'] 2 with
          recentCache := addAll (NewRecentMessageCache 2) [zeroMessage] }
        : TopicState).Subscribe (NewSubscriber ['s'] ['a'] ['n'] 1)).isSome = true) ∧
    (({ NewTopic ['n'] ['a'] 2 with
        recentCache := addAll (NewRecentMessageCache 2) [zeroMessage] }
      : TopicState).tenantID ≠ (NewSubscriber ['s'] ['a'] ['n'] 1).tenantID →
      ({ NewTopic ['n'] ['a'] 2 with
          recentCache := addAll (NewRecentMessageCache 2) [zeroMessage] }
        : TopicState).Subscribe (NewSubscriber ['s'] ['a'] ['n'] 1) = none) :=
  catchup_bounded_ordered 2 (by decide) [zeroMessage] _ _ (by decide) (by decide)
    (by decide) rfl

lemma getLastInt_nonneg (c : RecentMessageCache) (n : Int) (hn : 0 ≤ n) :
    ∃ l, c.GetLastInt n = some l ∧ l.length = min n.toNat c.count := by
  simp only [RecentMessageCache.GetLastInt]
  by_cases hgt : ((c.count : Int) < n)
  · rw [if_pos (show n > (c.count : Int) from hgt)]
    by_cases h0 : ((c.count : Int) = 0)
    · rw [if_pos h0]
      refine ⟨[], rfl, ?_⟩
      simp only [List.length_nil]
      omega
    · rw [if_neg h0, if_neg (by omega)]
      refine ⟨_, rfl, ?_⟩
      rw [getLast_length]
      omega
  · rw [if_neg (show ¬n > (c.count : Int) from hgt)]
    by_cases h0 : (n = 0)
    · rw [if_pos h0]
      refine ⟨[], rfl, ?_⟩
      simp only [List.length_nil]
      omega
    · rw [if_neg h0, if_neg (by omega)]
      refine ⟨_, rfl, ?_⟩
      rw [getLast_length]

/-- C10: `GetLast` is total exactly on non-negative arguments.  For `n ≥ 0`
it returns a list of length `min n count`; for `n < 0` on a non-empty cache
the `make([]Message, n)` allocation panics (`none`); and the panic is
unreachable from inside the program because `GetAll` passes `count ≥ 0` and
the catch-up path passes the literal 50. -/
theorem getLast_negative_panics (c : RecentMessageCache) (n : Int) :
    (0 ≤ n → ∃ l, c.GetLastInt n = some l ∧ l.length = min n.toNat c.count) ∧
    (n < 0 → 0 < c.count → c.GetLastInt n = none) ∧
    (∃ l, c.GetAll = some l) ∧
    (∃ l, c.GetLastInt 50 = some l) := by
  refine ⟨getLastInt_nonneg c n, ?_, ?_, ?_⟩
  · intro h1 _h2
    simp only [RecentMessageCache.GetLastInt]
    rw [if_neg (show ¬n > (c.count : Int) by omega), if_neg (by omega), if_pos h1]
  · obtain ⟨l, hl, _⟩ := getLastInt_nonneg c (c.count : Int) (by omega)
    exact ⟨l, hl⟩
  · obtain ⟨l, hl, _⟩ := getLastInt_nonneg c 50 (by omega)
    exact ⟨l, hl⟩

/-- C10 witness: a capacity-2 cache holding one message, probed at `n = 2`
and `n = -1`. -/
theorem getLast_negative_panics_witness :
    (∃ l, (addAll (NewRecentMessageCache 2) [zeroMessage]).GetLastInt 2 = some l ∧
      l.length = min (2 : Int).toNat (addAll (NewRecentMessageCache 2) [zeroMessage]).count) ∧
    (addAll (NewRecentMessageCache 2) [zeroMessage]).GetLastInt (-1) = none :=
  ⟨(getLast_negative_panics (addAll (NewRecentMessageCache 2) [zeroMessage]) 2).1 (by decide),
    (getLast_negative_panics (addAll (NewRecentMessageCache 2) [zeroMessage]) (-1)).2.1
      (by decide) (by decide)⟩

/-- Truncating conversion of a Go int64 value to int32, as in
`int32(memoryPerSub / AvgMessSize)`. -/
def toInt32 (x : Int) : Int := (x + 2 ^ 31) % 2 ^ 32 - 2 ^ 31

/-- Go `(*AddaptiveBufferManager).recalculate` (internal/buffer).  `old` is
the currently stored `bufferSize`; the function returns the value stored
after the step.  When the subscriber count is 0 the code returns before
storing, so the stored value is unchanged.  Otherwise: clamp available
memory at 0, divide by the subscriber count (Go truncating int64 division),
divide by `AvgMessSize = 1024`, truncate to int32, clamp to
`[MinBifferSize, MaxBufferSize] = [100, 1000]`. -/
def recalculate (maxTotalMemory currentMomory subCount old : Int) : Int :=
  if subCount = 0 then old
  else
    let availableMemory := maxTotalMemory - currentMomory
    let availableMemory := if availableMemory < 0 then 0 else availableMemory
    let memoryPerSub := availableMemory.tdiv subCount
    let bufferPerSub := toInt32 (memoryPerSub.tdiv 1024)
    let bufferPerSub := if bufferPerSub < 100 then 100 else bufferPerSub
    let bufferPerSub := if bufferPerSub > 1000 then 1000 else bufferPerSub
    bufferPerSub

/-- The buffer size C4 says every recalculation step stores, written from the
spec's words: `clamp((max(0, max_total_memory - alloc) / max(1,
subscriber_count)) / 1024, 100, 1000)`. -/
def specStoredBufferSize (maxTotalMemory alloc subCount : Int) : Int :=
  min (max (((max (maxTotalMemory - alloc) 0).tdiv (max 1 subCount)).tdiv 1024) 100) 1000

/-- C4 counterexample: at `subscriber_count = 0` the code returns without
storing, so the previously stored value (here 1000, the initial
`MaxBufferSize`) survives, while the claim's formula demands
`clamp(0 / 1 / 1024) = 100`. -/
theorem bufferRecalc_zero_counterexample :
    recalculate 0 0 0 1000 = 1000 ∧ specStoredBufferSize 0 0 0 = 100 ∧
    (1000 : Int) ≠ 100 := by
  decide

lemma toInt32_eq_self {x : Int} (h1 : -2 ^ 31 ≤ x) (h2 : x < 2 ^ 31) : toInt32 x = x := by
  unfold toInt32
  rw [Int.emod_eq_of_lt (by omega) (by omega)]
  omega

/-- C4 (amended): a recalculation step with `subscriber_count = 0` leaves the
stored buffer size unchanged; for `subscriber_count ≥ 1` (with a non-negative
heap reading and a configured memory bound below 2^41 bytes, so the int32
conversion cannot wrap) it stores exactly the spec's clamped formula. -/
theorem bufferRecalc_formula (maxMem alloc n old : Int) :
    recalculate maxMem alloc 0 old = old ∧
    (1 ≤ n → 0 ≤ alloc → 0 ≤ maxMem → maxMem < 2 ^ 41 →
      recalculate maxMem alloc n old = specStoredBufferSize maxMem alloc n) := by
  constructor
  · simp [recalculate]
  · intro h1 h2 h3 h4
    simp only [recalculate, specStoredBufferSize]
    rw [if_neg (by omega)]
    rw [show (if maxMem - alloc < 0 then (0 : Int) else maxMem - alloc)
        = max (maxMem - alloc) 0 by split <;> omega]
    rw [show max 1 n = n by omega]
    have hA0 : (0 : Int) ≤ max (maxMem - alloc) 0 := le_max_right _ _
    have hA1 : max (maxMem - alloc) 0 < 2 ^ 41 := by omega
    have hq1a : (0 : Int) ≤ (max (maxMem - alloc) 0).tdiv n :=
      Int.tdiv_nonneg hA0 (by omega)
    have hq1b : (max (maxMem - alloc) 0).tdiv n < 2 ^ 41 := by
      rw [Int.tdiv_eq_ediv hA0 (by omega)]
      calc (max (maxMem - alloc) 0) / n ≤ max (maxMem - alloc) 0 :=
            Int.ediv_le_self _ hA0
        _ < 2 ^ 41 := hA1
    have hq2a : (0 : Int) ≤ ((max (maxMem - alloc) 0).tdiv n).tdiv 1024 :=
      Int.tdiv_nonneg hq1a (by omega)
    have hq2b : ((max (maxMem - alloc) 0).tdiv n).tdiv 1024 < 2 ^ 31 := by
      rw [Int.tdiv_eq_ediv hq1a (by omega)]
      rw [Int.ediv_lt_iff_lt_mul (by omega)]
      omega
    rw [toInt32_eq_self (by omega) hq2b]
    split <;> split <;> omega

/-- C4 witness: 1 GiB of configured memory, zero heap, four subscribers. -/
theorem bufferRecalc_formula_witness :
    recalculate (2 ^ 30) 0 0 7 = 7 ∧
    recalculate (2 ^ 30) 0 4 7 = specStoredBufferSize (2 ^ 30) 0 4 :=
  ⟨(bufferRecalc_formula (2 ^ 30) 0 4 7).1,
    (bufferRecalc_formula (2 ^ 30) 0 4 7).2 (by norm_num) (by norm_num) (by norm_num)
      (by norm_num)⟩

/-- Timed semantics of Go `(*AdaptiveThrottler).StartThrottling` /
`StopThrottling` (internal/throttle).  `StartThrottling` stores `true` and
spawns one goroutine that sleeps `ThrottleDuration` and then stores `false`;
nothing else writes the flag.  With exact-delay timers, after the arm calls
at the times in `arms`, a disarm fires at `b + D` for every `b` in `arms`,
and the flag reads `true` at time `u` exactly when some arm happened at
`a ≤ u` with no disarm firing strictly inside `(a, u]` (an arm and a disarm
at the same instant leave the flag set, the arm writing last). -/
def throttleFlag (arms : List Nat) (D u : Nat) : Bool :=
  decide (∃ a ∈ arms, a ≤ u ∧ ∀ b ∈ arms, ¬(a < b + D ∧ b + D ≤ u))

/-- C5 counterexample to the claim as stated: arms at times 0 and 3 with
`throttle_duration = 5`.  The timer spawned by the arm at 0 fires at 5 and
clears the flag, only 2 seconds after the arm at 3 — so `is_throttling` does
not stay true for `throttle_duration` after every arm call. -/
theorem throttle_hysteresis_counterexample :
    (3 : Nat) ∈ [0, 3] ∧ 3 ≤ 6 ∧ 6 < 3 + 5 ∧ throttleFlag [0, 3] 5 6 = false := by
  decide

/-- C5 (amended): an arm at time `a` such that every earlier arm's disarm
timer has already fired by `a` (which is the case for every arm the
sequential `ShouldThrottle` discipline can issue, since it arms only while
disarmed) keeps `is_throttling` true throughout `[a, a + D)`; and no set of
arm calls all earlier than `w + D` keeps the flag true at `w + D` — arm calls
during an active window do not extend it.  A disarm timer still pending from
an arm inside an earlier window can, however, end a later window early
(see the counterexample). -/
theorem throttle_hysteresis_amended (arms : List Nat) (D a u : Nat)
    (ha : a ∈ arms) (hprev : ∀ b ∈ arms, b < a → b + D ≤ a)
    (h1 : a ≤ u) (h2 : u < a + D) :
    throttleFlag arms D u = true ∧
    ∀ w ∈ arms, (∀ b ∈ arms, b < w + D) → throttleFlag arms D (w + D) = false := by
  constructor
  · rw [throttleFlag, decide_eq_true_eq]
    refine ⟨a, ha, h1, ?_⟩
    intro b hb hcon
    have hba : b < a := by omega
    have := hprev b hb hba
    omega
  · intro w hw hall
    rw [throttleFlag, decide_eq_false_iff_not]
    rintro ⟨c, hc, _hcu, hc2⟩
    exact hc2 w hw ⟨by exact lt_of_lt_of_le (hall c hc) (le_refl _), le_refl _⟩

/-- C5 witness: arms at 0 and 7 with `D = 5`; the second arm opens a clean
window and the flag is still up at time 9. -/
theorem throttle_hysteresis_amended_witness :
    throttleFlag [0, 7] 5 9 = true ∧
    ∀ w ∈ [0, 7], (∀ b ∈ [0, 7], b < w + 5) → throttleFlag [0, 7] 5 (w + 5) = false :=
  throttle_hysteresis_amended [0, 7] 5 7 9 (by decide) (by decide) (by decide) (by decide)

/-- Go `throttle.Config`; the durations are int64 nanoseconds
(`time.Duration`). -/
structure Config where
  CPUThreshold : ℚ
  MemoryThreshold : ℚ
  SlowSubThreshold : ℚ
  ThrottleDuration : Int
  CheckInterval : Int
  MinPublishInterval : Int
deriving DecidableEq

/-- Go `throttle.DefaultConfig()`. -/
def DefaultConfig : Config :=
  { CPUThreshold := 8 / 10
    MemoryThreshold := 8 / 10
    SlowSubThreshold := 5 / 10
    ThrottleDuration := 5 * 1000000000
    CheckInterval := 1 * 1000000000
    MinPublishInterval := 10 * 1000000 }

/-- Result of one `ShouldThrottle` call: the returned decision and the
post-state of the two atomics it may write. -/
structure ThrottleCheckResult where
  result : Bool
  isThrottling : Bool
  lastCheckTime : Int
deriving DecidableEq

/-- Go `(*AdaptiveThrottler).ShouldThrottle`, sequentially.  `lastCheckTime`
and `now` are Unix seconds (the code stores `now.Unix()` and rebuilds the
time with `time.Unix`, so the comparison against `CheckInterval` happens at
whole-second granularity), and `CheckInterval` is in nanoseconds.  CPU and
memory usage are the sampled `[0,1]` signals.  If the elapsed time is short
the cached flag is returned; otherwise, with `totalSubCount = 0` the call
returns false; otherwise the decision is computed and, when true,
`StartThrottling` stores true. -/
def ShouldThrottle (cfg : Config) (isThrottling : Bool) (lastCheckTime now : Int)
    (slowSubCount totalSubCount : Int) (cpuUsage memoryUsage : ℚ) : ThrottleCheckResult :=
  if isThrottling then ⟨true, isThrottling, lastCheckTime⟩
  else if (now - lastCheckTime) * 1000000000 < cfg.CheckInterval then
    ⟨isThrottling, isThrottling, lastCheckTime⟩
  else if totalSubCount = 0 then ⟨false, isThrottling, now⟩
  else
    let slowSubPercentage : ℚ := (slowSubCount : ℚ) / (totalSubCount : ℚ)
    let d := decide (slowSubPercentage > cfg.SlowSubThreshold ∧
      (cpuUsage > cfg.CPUThreshold ∨ memoryUsage > cfg.MemoryThreshold))
    ⟨d, if d then true else isThrottling, now⟩

/-- C6: `ShouldThrottle` returns true immediately when already throttling;
returns the cached flag without sampling or storing when less than
`check_interval` has elapsed since the last check; and otherwise stores the
check time and returns `slow/total > slow_sub_threshold AND (cpu >
cpu_threshold OR mem > mem_threshold)` — false whenever `total = 0` — arming
the throttle exactly when that decision is true. -/
theorem shouldThrottle_correct (cfg : Config) (isT : Bool) (last now : Int)
    (slow total : Int) (cpu mem : ℚ) :
    (isT = true → ShouldThrottle cfg isT last now slow total cpu mem = ⟨true, true, last⟩) ∧
    (isT = false → (now - last) * 1000000000 < cfg.CheckInterval →
      ShouldThrottle cfg isT last now slow total cpu mem = ⟨false, false, last⟩) ∧
    (isT = false → ¬(now - last) * 1000000000 < cfg.CheckInterval →
      ShouldThrottle cfg isT last now slow total cpu mem
        = ⟨decide (total ≠ 0 ∧ (slow : ℚ) / (total : ℚ) > cfg.SlowSubThreshold ∧
              (cpu > cfg.CPUThreshold ∨ mem > cfg.MemoryThreshold)),
            decide (total ≠ 0 ∧ (slow : ℚ) / (total : ℚ) > cfg.SlowSubThreshold ∧
              (cpu > cfg.CPUThreshold ∨ mem > cfg.MemoryThreshold)),
            now⟩) := by
  refine ⟨?_, ?_, ?_⟩
  · intro h
    subst h
    simp [ShouldThrottle]
  · intro h1 h2
    subst h1
    simp [ShouldThrottle, h2]
  · intro h1 h2
    subst h1
    simp only [ShouldThrottle, Bool.false_eq_true, if_false]
    rw [if_neg h2]
    by_cases ht : total = 0
    · simp [ht]
    · rw [if_neg ht]
      have : (total ≠ 0 ∧ (slow : ℚ) / (total : ℚ) > cfg.SlowSubThreshold ∧
            (cpu > cfg.CPUThreshold ∨ mem > cfg.MemoryThreshold))
          ↔ ((slow : ℚ) / (total : ℚ) > cfg.SlowSubThreshold ∧
            (cpu > cfg.CPUThreshold ∨ mem > cfg.MemoryThreshold)) := by
        constructor
        · exact fun h => h.2
        · exact fun h => ⟨ht, h⟩
      rw [decide_eq_decide.mpr this]
      simp
      infer_instance

/-- C6 witness: default config, not throttling, two seconds since the last
check, 3 slow of 4 subscribers, CPU at 0.9. -/
theorem shouldThrottle_correct_witness :
    ShouldThrottle DefaultConfig false 0 2 3 4 (9 / 10) 0
      = ⟨decide ((4 : Int) ≠ 0 ∧ ((3 : Int) : ℚ) / ((4 : Int) : ℚ)
              > DefaultConfig.SlowSubThreshold ∧
            ((9 / 10 : ℚ) > DefaultConfig.CPUThreshold ∨
              (0 : ℚ) > DefaultConfig.MemoryThreshold)),
          decide ((4 : Int) ≠ 0 ∧ ((3 : Int) : ℚ) / ((4 : Int) : ℚ)
              > DefaultConfig.SlowSubThreshold ∧
            ((9 / 10 : ℚ) > DefaultConfig.CPUThreshold ∨
              (0 : ℚ) > DefaultConfig.MemoryThreshold)),
          2⟩ :=
  (shouldThrottle_correct DefaultConfig false 0 2 3 4 (9 / 10) 0).2.2 rfl
    (by norm_num [DefaultConfig])

/-- Go `(*Subscriber).IsHealthy`: false when more than 60 seconds have
passed since `lastActive` (`elapsed` is that duration in seconds); false when
`messagesRecieved > 0` and `dropped / received` is strictly greater than 0.1;
true otherwise.  The float64 ratio and literal are modelled in `ℚ`. -/
def Subscriber.IsHealthy (s : Subscriber) (elapsed : ℚ) : Bool :=
  if elapsed > 60 then false
  else if 0 < s.received ∧ (s.dropped : ℚ) / (s.received : ℚ) > 1 / 10 then false
  else true

/-- C9 counterexample to the claim as stated: with `received = 10`,
`dropped = 1` and a fresh `last_active`, the ratio is exactly 0.1; the code
tests `dropRate > 0.1` and returns healthy, while the claimed iff with
`dropped/received < 0.1` demands unhealthy. -/
theorem isHealthy_boundary_counterexample :
    ({ NewSubscriber [] [] [] 1 with received := 10, dropped := 1 }
      : Subscriber).IsHealthy 0 = true ∧
    ¬(((1 : Nat) : ℚ) / ((10 : Nat) : ℚ) < 1 / 10) := by
  constructor
  · simp only [Subscriber.IsHealthy, NewSubscriber]
    norm_num
  · norm_num

/-- C9 (amended): `is_healthy()` returns true iff `last_active` is within 60
seconds and, when `received > 0`, `dropped/received ≤ 0.1` (the boundary
ratio exactly 0.1 counts as healthy); `received = 0` always passes the drop
check. -/
theorem isHealthy_characterization (s : Subscriber) (elapsed : ℚ) :
    s.IsHealthy elapsed = true ↔
      (elapsed ≤ 60 ∧ (s.received = 0 ∨ (s.dropped : ℚ) / (s.received : ℚ) ≤ 1 / 10)) := by
  unfold Subscriber.IsHealthy
  split_ifs with h1 h2
  · simp only [Bool.false_eq_true, false_iff]
    rintro ⟨ha, _⟩
    linarith
  · simp only [Bool.false_eq_true, false_iff]
    obtain ⟨h21, h22⟩ := h2
    rintro ⟨ha, hb | hb⟩
    · omega
    · linarith
  · simp only [true_iff]
    push_neg at h1 h2
    refine ⟨h1, ?_⟩
    rcases Nat.eq_zero_or_pos s.received with h | h
    · exact Or.inl h
    · exact Or.inr (h2 h)
